import Mathlib

/-!
Shallow embedding of the PSP fraud-detection service
(`src/services/FraudDetectionService.ts` and
`src/services/AIFraudAnalysisService.ts`).

Database access (Mongo queries, the velocity counter store) and the remote
AI oracle are external collaborators: they enter the embedding as explicit
parameters (the queried history lists, the counter for a key, the oracle
outcome), so every service method becomes a pure function of its inputs and
of the data its queries would return.

JavaScript numbers are modelled as `ℚ` (amounts, scores, confidences) and
timestamps as `ℤ` (milliseconds since epoch).
-/

namespace Fraud

/-- Transaction status, from `src/types` (`pending | success | failed | blocked`). -/
inductive TxStatus where
  | pending
  | success
  | failed
  | blocked
deriving DecidableEq, Repr

/-- Transaction record from `src/types`. `createdAt` is the epoch-millisecond
timestamp; `createdAtHour` models `new Date(transaction.createdAt).getHours()`,
the local hour of day in `0..23`, carried as a field because the embedding has
no time-zone machinery. `ipAddress = none` models a missing field and
`some ""` an empty string (both falsy in JavaScript). -/
structure Transaction where
  amount : ℚ
  customerEmail : String
  merchantId : String
  ipAddress : Option String := none
  createdAt : ℤ := 0
  createdAtHour : ℕ := 12
  status : TxStatus := .pending
  isNewCustomer : Option Bool := none
  currency : Option String := none
  paymentMethod : Option String := none
  description : Option String := none

/-- A fraud rule: id, name, description, weight, enabled flag and a boolean
condition over a transaction (`FraudRule` in `src/types`). -/
structure FraudRule where
  id : String
  name : String
  description : String
  weight : ℤ
  enabled : Bool
  condition : Transaction → Bool

instance : Inhabited FraudRule :=
  ⟨{ id := "", name := "", description := "", weight := 0, enabled := false,
     condition := fun _ => false }⟩

/-- Risk level, from `FraudRiskScore.level` (`low | medium | high | critical`). -/
inductive RiskLevel where
  | low
  | medium
  | high
  | critical
deriving DecidableEq, Repr

/-- `FraudRiskScore` from `src/types`: clamped score, level, fired factors,
recommendations. -/
structure FraudRiskScore where
  score : ℤ
  level : RiskLevel
  factors : List String
  recommendations : List String
deriving Repr

/-- The built-in `FRAUD_RULES` table of `FraudDetectionService`, translated
rule for rule: `high_amount` (amount > 1,000,000), `multiple_failed_attempts`
(stub, always false), `unusual_time` (hour < 6 or hour > 23),
`new_customer_high_amount` (amount > 500,000 and `isNewCustomer === true`),
`suspicious_ip` (stub, always false), `velocity_check` (stub, always false). -/
def FRAUD_RULES : List FraudRule :=
  [ { id := "high_amount", name := "High Transaction Amount",
      description := "Transaction amount is unusually high",
      weight := 20, enabled := true,
      condition := fun t => decide (t.amount > 1000000) },
    { id := "multiple_failed_attempts", name := "Multiple Failed Attempts",
      description := "Multiple failed payment attempts from same source",
      weight := 25, enabled := true,
      condition := fun _ => false },
    { id := "unusual_time", name := "Unusual Transaction Time",
      description := "Transaction at unusual hours",
      weight := 15, enabled := true,
      condition := fun t => decide (t.createdAtHour < 6) || decide (t.createdAtHour > 23) },
    { id := "new_customer_high_amount", name := "New Customer High Amount",
      description := "New customer with high transaction amount",
      weight := 30, enabled := true,
      condition := fun t => decide (t.amount > 500000) && decide (t.isNewCustomer = some true) },
    { id := "suspicious_ip", name := "Suspicious IP Address",
      description := "Transaction from suspicious IP address",
      weight := 20, enabled := true,
      condition := fun _ => false },
    { id := "velocity_check", name := "High Velocity Transactions",
      description := "Too many transactions in short time",
      weight := 25, enabled := true,
      condition := fun _ => false } ]

/-- The rule loop of `calculateRiskScore`: fold over the rule list, and for
every rule with `rule.enabled && rule.condition(transaction)` add its weight
to the total and append its name to the factor list. -/
def ruleContributions (rules : List FraudRule) (t : Transaction) : ℤ × List String :=
  rules.foldl
    (fun acc rule =>
      if rule.enabled && rule.condition t then (acc.1 + rule.weight, acc.2 ++ [rule.name])
      else acc)
    (0, [])

/-- `calculateRiskScore`, with the three async anomaly checks passed in as
the booleans they return (`velocityCheck`, `amountAnomaly`,
`geographicAnomaly`). Mirrors the source: rule loop, then +30 / +25 / +20
with their factor strings, then the level ladder on `totalScore`, level-based
recommendations, and `score = Math.min(totalScore, 100)`. -/
def calculateRiskScore (rules : List FraudRule) (t : Transaction)
    (velocityCheck amountAnomaly geographicAnomaly : Bool) : FraudRiskScore :=
  let base := ruleContributions rules t
  let s1 := if velocityCheck then base.1 + 30 else base.1
  let f1 := if velocityCheck then base.2 ++ ["High velocity transactions"] else base.2
  let s2 := if amountAnomaly then s1 + 25 else s1
  let f2 := if amountAnomaly then f1 ++ ["Amount anomaly detected"] else f1
  let totalScore := if geographicAnomaly then s2 + 20 else s2
  let factors := if geographicAnomaly then f2 ++ ["Geographic anomaly"] else f2
  let level : RiskLevel :=
    if totalScore ≥ 80 then .critical
    else if totalScore ≥ 60 then .high
    else if totalScore ≥ 40 then .medium
    else .low
  let recommendations : List String :=
    if totalScore ≥ 80 then ["Block transaction immediately", "Flag customer for review"]
    else if totalScore ≥ 60 then ["Review transaction manually", "Request additional verification"]
    else if totalScore ≥ 40 then ["Monitor transaction closely", "Consider additional verification"]
    else ["Proceed with normal processing"]
  { score := min totalScore 100
    level := level
    factors := factors
    recommendations := recommendations }

/-- The raw (unclamped) total of `calculateRiskScore`: rule contributions
plus the fixed detector contributions (+30 velocity, +25 amount,
+20 geographic). -/
def rawTotal (rules : List FraudRule) (t : Transaction)
    (velocityCheck amountAnomaly geographicAnomaly : Bool) : ℤ :=
  (ruleContributions rules t).1 + (if velocityCheck then 30 else 0)
    + (if amountAnomaly then 25 else 0) + (if geographicAnomaly then 20 else 0)

/-- The fixed score-to-level breakpoints of `calculateRiskScore`:
80 and above critical, 60 and above high, 40 and above medium, below 40 low. -/
def riskLevelOf (score : ℤ) : RiskLevel :=
  if score ≥ 80 then .critical
  else if score ≥ 60 then .high
  else if score ≥ 40 then .medium
  else .low

/-- The `SandboxVelocity` counter document for one key: `count` and
`expiresAt` (epoch milliseconds). -/
structure VelCounter where
  count : ℕ
  expiresAt : ℤ
deriving DecidableEq, Repr

/-- One call of `checkVelocityFraud` for a fixed key, with the counter store
for that key passed in as `existing` (`none` models no document). Returns the
boolean verdict and the counter written back. If the counter is absent or
expired (`expiresAt.getTime() <= now`) it is reset to `count = 1` with
`expiresAt = now + timeWindow` and the call returns false; otherwise the
count is incremented and the call returns `count > maxAttempts`. -/
def checkVelocityFraud (maxAttempts : ℕ) (timeWindow : ℤ) (now : ℤ)
    (existing : Option VelCounter) : Bool × VelCounter :=
  match existing with
  | none => (false, { count := 1, expiresAt := now + timeWindow })
  | some c =>
    if c.expiresAt ≤ now then
      (false, { count := 1, expiresAt := now + timeWindow })
    else
      (decide (c.count + 1 > maxAttempts), { count := c.count + 1, expiresAt := c.expiresAt })

/-- A sequence of `checkVelocityFraud` calls on one key at the given times,
threading the written-back counter; returns the verdict of each call in
order. -/
def velRun (maxAttempts : ℕ) (timeWindow : ℤ) :
    Option VelCounter → List ℤ → List Bool
  | _, [] => []
  | s, now :: rest =>
    let step := checkVelocityFraud maxAttempts timeWindow now s
    step.1 :: velRun maxAttempts timeWindow (some step.2) rest

/-- Maximum of a list of amounts, as Mongo `$max` over the matched documents
(only ever used on the nonempty branch). -/
def listMax : List ℚ → ℚ
  | [] => 0
  | a :: rest => rest.foldl max a

/-- `checkAmountAnomaly`, with the Mongo aggregation's input — the amounts of
the merchant's successful transactions inside the trailing window — passed in
as `history`. An empty aggregation result (`stats.length === 0`) yields
false; otherwise the verdict is
`amount > avgAmount * multiplier || amount > maxAmount * 1.5`. -/
def checkAmountAnomaly (history : List ℚ) (amount : ℚ) (multiplier : ℚ) : Bool :=
  match history with
  | [] => false
  | _ :: _ =>
    let avgAmount := history.sum / history.length
    let maxAmount := listMax history
    decide (amount > avgAmount * multiplier) || decide (amount > maxAmount * (3 / 2))

/-- `checkGeographicAnomaly`, with the queried history — the `ipAddress`
field of every transaction of the customer inside the trailing window —
passed in as `history`. An empty query result yields false; otherwise the
verdict is whether the number of distinct non-falsy IP addresses
(`filter(Boolean)` drops missing and empty values) exceeds `maxLocations`.
The current transaction's own location argument is accepted, as in the
source, but never read. -/
def checkGeographicAnomaly (history : List (Option String))
    (transactionLocation : String) (maxLocations : ℕ) : Bool :=
  match history with
  | [] => false
  | _ :: _ =>
    let uniqueLocations := ((history.filterMap id).filter (fun s => s ≠ "")).dedup
    decide (uniqueLocations.length > maxLocations)

/-- `AIFraudAnalysis` from `src/types`. -/
structure AIFraudAnalysis where
  isFraudulent : Bool
  confidence : ℚ
  reasoning : String
  riskFactors : List String
  recommendations : List String
  aiModel : String
  analysisTime : ℤ

/-- JavaScript `Math.round`: round half away from zero toward positive
infinity, i.e. the floor of `x + 1/2`. -/
def jsRound (x : ℚ) : ℤ := ⌊x + 1 / 2⌋

/-- `combineRiskScores`: with no AI analysis the traditional score is
returned unchanged; with one, the weighted blend
`traditional * 0.7 + (confidence * 100) * 0.3` is rounded and clamped as
`Math.min(100, Math.max(0, Math.round(combinedScore)))`. -/
def combineRiskScores (traditionalScore : ℚ) (aiAnalysis : Option AIFraudAnalysis) : ℚ :=
  match aiAnalysis with
  | none => traditionalScore
  | some a =>
    let aiScore := a.confidence * 100
    let combinedScore := traditionalScore * (7 / 10) + aiScore * (3 / 10)
    ((min 100 (max 0 (jsRound combinedScore)) : ℤ) : ℚ)

/-- Final action (`allow | block | review | flag`). -/
inductive Action where
  | allow
  | block
  | review
  | flag
deriving DecidableEq, Repr

/-- `determineFinalAction`, parametrised by the configured thresholds.
If an AI analysis exists with `isFraudulent` and
`confidence >= AI_CONFIDENCE_THRESHOLD`, the AI ladder applies (block /
review / flag, never allow); otherwise the plain threshold ladder on the
combined score applies. Returns the action and the reason string. -/
def determineFinalAction (blockThreshold reviewThreshold flagThreshold : ℚ)
    (aiConfidenceThreshold : ℚ) (aiAnalysis : Option AIFraudAnalysis)
    (combinedScore : ℚ) : Action × String :=
  let aiHighConfidenceFraud :=
    match aiAnalysis with
    | some a => a.isFraudulent && decide (a.confidence ≥ aiConfidenceThreshold)
    | none => false
  if aiHighConfidenceFraud then
    if combinedScore ≥ blockThreshold then (.block, "AI detected high-confidence fraud")
    else if combinedScore ≥ reviewThreshold then (.review, "AI detected suspicious activity")
    else (.flag, "AI detected potential risk")
  else
    if combinedScore ≥ blockThreshold then (.block, "High combined risk score")
    else if combinedScore ≥ reviewThreshold then (.review, "Elevated risk detected")
    else if combinedScore ≥ flagThreshold then (.flag, "Moderate risk detected")
    else (.allow, "Low risk transaction")

/-- Outcome of the remote Groq call inside
`AIFraudAnalysisService.analyzeTransaction`: either a successfully parsed
analysis, or any failure (timeout, network error, empty or malformed
response that even the text fallback cannot handle never occurs — parsing
always yields something — so `failed` covers the transport-level errors). -/
inductive OracleOutcome where
  | ok (analysis : AIFraudAnalysis)
  | failed

/-- `AIFraudAnalysisService.analyzeTransaction`: the whole body sits in a
try/catch whose catch clause returns a fallback analysis
(`isFraudulent = false`, `confidence = 0`), so the method never throws.
The disabled flag and the missing API key are raised inside the try and
therefore also land in the fallback. `elapsed` models
`Date.now() - startTime`. -/
def aiServiceAnalyzeTransaction (enabled apiKeyConfigured : Bool)
    (oracle : OracleOutcome) (model : String) (elapsed : ℤ) : AIFraudAnalysis :=
  let fallback : AIFraudAnalysis :=
    { isFraudulent := false
      confidence := 0
      reasoning := "AI analysis failed - using fallback assessment"
      riskFactors := ["AI analysis unavailable"]
      recommendations := ["Manual review recommended due to AI analysis failure"]
      aiModel := model
      analysisTime := elapsed }
  if enabled = false then fallback
  else if apiKeyConfigured = false then fallback
  else
    match oracle with
    | .failed => fallback
    | .ok a => { a with analysisTime := elapsed, aiModel := model }

/-- The fields of `EnhancedFraudDetectionResult` that
`analyzeTransactionWithAI` computes on top of the traditional result. -/
structure EnhancedOutcome where
  combinedRiskScore : ℚ
  aiEnhanced : Bool
  action : Action
deriving Repr

/-- `analyzeTransactionWithAI`, given the traditional score and action and
the state of the AI collaborator. When `ENV.AI_FRAUD_ANALYSIS_ENABLED` the
service call is made inside a try/catch, but since
`aiServiceAnalyzeTransaction` never throws the catch is unreachable and
`aiAnalysis` is always set on that path; when disabled, `aiAnalysis` stays
undefined. Then `combinedRiskScore = combineRiskScores(traditional, ai)`,
`aiEnhanced = !!aiAnalysis`, and the action comes from
`determineFinalAction`. -/
def analyzeTransactionWithAI (enabled apiKeyConfigured : Bool)
    (oracle : OracleOutcome) (model : String) (elapsed : ℤ)
    (blockThreshold reviewThreshold flagThreshold aiConfidenceThreshold : ℚ)
    (traditionalScore : ℚ) : EnhancedOutcome :=
  let aiAnalysis : Option AIFraudAnalysis :=
    if enabled then some (aiServiceAnalyzeTransaction enabled apiKeyConfigured oracle model elapsed)
    else none
  let combinedRiskScore := combineRiskScores traditionalScore aiAnalysis
  let finalAction := determineFinalAction blockThreshold reviewThreshold flagThreshold
    aiConfidenceThreshold aiAnalysis combinedRiskScore
  { combinedRiskScore := combinedRiskScore
    aiEnhanced := aiAnalysis.isSome
    action := finalAction.1 }

/-- `Partial<FraudRule>` as used by `updateFraudRule`: every field optional,
present fields override the existing rule (object-spread semantics). -/
structure FraudRuleUpdate where
  id : Option String := none
  name : Option String := none
  description : Option String := none
  weight : Option ℤ := none
  enabled : Option Bool := none
  condition : Option (Transaction → Bool) := none

/-- The object spread `{ ...rule, ...updates }`. -/
def applyRuleUpdate (rule : FraudRule) (u : FraudRuleUpdate) : FraudRule :=
  { id := u.id.getD rule.id
    name := u.name.getD rule.name
    description := u.description.getD rule.description
    weight := u.weight.getD rule.weight
    enabled := u.enabled.getD rule.enabled
    condition := u.condition.getD rule.condition }

/-- `updateFraudRule` over an explicit registry list: `findIndex` by id,
return false leaving the registry untouched when the id is unknown,
otherwise replace the rule in place by the spread-merged rule. -/
def updateFraudRule (rules : List FraudRule) (ruleId : String)
    (updates : FraudRuleUpdate) : Bool × List FraudRule :=
  match rules.findIdx? (fun rule => rule.id == ruleId) with
  | none => (false, rules)
  | some i => (true, rules.set i (applyRuleUpdate (rules.getD i default) updates))

/-- `removeFraudRule`: `findIndex` by id, false when unknown, otherwise
`splice(index, 1)`. -/
def removeFraudRule (rules : List FraudRule) (ruleId : String) : Bool × List FraudRule :=
  match rules.findIdx? (fun rule => rule.id == ruleId) with
  | none => (false, rules)
  | some i => (true, rules.eraseIdx i)

/-- `toggleFraudRule`: convenience wrapper over `updateFraudRule` sending
only the enabled flag. -/
def toggleFraudRule (rules : List FraudRule) (ruleId : String) (enabled : Bool) :
    Bool × List FraudRule :=
  updateFraudRule rules ruleId { enabled := some enabled }

/-! ### Helper lemmas -/

/-- The rule fold never decreases the running score when every weight is
nonnegative. -/
lemma foldl_weight_le (t : Transaction) :
    ∀ (rules : List FraudRule) (init : ℤ × List String),
      (∀ r ∈ rules, 0 ≤ r.weight) →
      init.1 ≤ (rules.foldl
        (fun acc rule =>
          if rule.enabled && rule.condition t then (acc.1 + rule.weight, acc.2 ++ [rule.name])
          else acc) init).1
  | [], _, _ => le_refl _
  | rule :: rest, init, h => by
    simp only [List.foldl_cons]
    have h1 : 0 ≤ rule.weight := h rule (List.mem_cons_self _ _)
    have h2 : ∀ r ∈ rest, 0 ≤ r.weight := fun r hr => h r (List.mem_cons_of_mem _ hr)
    refine le_trans ?_ (foldl_weight_le t rest _ h2)
    by_cases hc : rule.enabled && rule.condition t
    · simp only [hc, if_pos]
      omega
    · simp [hc]

lemma ruleContributions_nonneg (rules : List FraudRule) (t : Transaction)
    (h : ∀ r ∈ rules, 0 ≤ r.weight) : 0 ≤ (ruleContributions rules t).1 :=
  foldl_weight_le t rules (0, []) h

lemma FRAUD_RULES_weights_nonneg : ∀ r ∈ FRAUD_RULES, 0 ≤ r.weight := by
  intro r hr
  simp only [FRAUD_RULES, List.mem_cons, List.not_mem_nil, or_false] at hr
  rcases hr with rfl | rfl | rfl | rfl | rfl | rfl <;> norm_num

/-- The returned score is the raw total clamped above at 100. -/
lemma calculateRiskScore_score (rules : List FraudRule) (t : Transaction) (v a g : Bool) :
    (calculateRiskScore rules t v a g).score = min (rawTotal rules t v a g) 100 := by
  cases v <;> cases a <;> cases g <;> simp [calculateRiskScore, rawTotal]

/-- The returned level is the breakpoint ladder applied to the raw total. -/
lemma calculateRiskScore_level (rules : List FraudRule) (t : Transaction) (v a g : Bool) :
    (calculateRiskScore rules t v a g).level = riskLevelOf (rawTotal rules t v a g) := by
  cases v <;> cases a <;> cases g <;> simp [calculateRiskScore, rawTotal, riskLevelOf]

/-- Clamping a score at 100 does not change its risk level. -/
lemma riskLevelOf_min_100 (total : ℤ) : riskLevelOf (min total 100) = riskLevelOf total := by
  unfold riskLevelOf
  split_ifs <;> first | rfl | omega

/-! ### Claim theorems -/

/-- C1: for every transaction and every combination of detector outcomes,
the score returned by `calculateRiskScore` over the built-in rule table is
the sum of the weights of the enabled fired rules plus the fixed detector
contributions (+30 velocity, +25 amount, +20 geographic) clamped to
`[0, 100]`, and in particular lies between 0 and 100 inclusive. -/
theorem calculateRiskScore_score_clamped (t : Transaction) (v a g : Bool) :
    (calculateRiskScore FRAUD_RULES t v a g).score
        = min 100 (max 0 (rawTotal FRAUD_RULES t v a g))
      ∧ 0 ≤ (calculateRiskScore FRAUD_RULES t v a g).score
      ∧ (calculateRiskScore FRAUD_RULES t v a g).score ≤ 100 := by
  have hnn : 0 ≤ (ruleContributions FRAUD_RULES t).1 :=
    ruleContributions_nonneg FRAUD_RULES t FRAUD_RULES_weights_nonneg
  have hraw : 0 ≤ rawTotal FRAUD_RULES t v a g := by
    unfold rawTotal
    cases v <;> cases a <;> cases g <;> simp <;> omega
  rw [calculateRiskScore_score]
  omega

/-- C2: for every rule table, transaction and detector outcomes, the level
returned by `calculateRiskScore` is the pure breakpoint function of the
returned score (80 and above critical, 60 to 79 high, 40 to 59 medium,
below 40 low); in particular a score of 79 maps to high and a score of 80
to critical. -/
theorem calculateRiskScore_level_breakpoints (rules : List FraudRule) (t : Transaction)
    (v a g : Bool) :
    (calculateRiskScore rules t v a g).level
        = riskLevelOf (calculateRiskScore rules t v a g).score
      ∧ riskLevelOf 79 = .high ∧ riskLevelOf 80 = .critical := by
  refine ⟨?_, rfl, rfl⟩
  rw [calculateRiskScore_level, calculateRiskScore_score, riskLevelOf_min_100]

/-- A run of velocity checks on an unexpired counter: every call increments
the count and reports whether the incremented count exceeds the threshold. -/
lemma velRun_unexpired (m : ℕ) (w : ℤ) :
    ∀ (ts : List ℤ) (c : VelCounter),
      (∀ u ∈ ts, u < c.expiresAt) →
      velRun m w (some c) ts
        = (List.range ts.length).map (fun i => decide (c.count + i + 1 > m))
  | [], _, _ => rfl
  | u :: rest, c, h => by
    have hu : u < c.expiresAt := h u (List.mem_cons_self _ _)
    have hrest : ∀ x ∈ rest, x < c.expiresAt := fun x hx => h x (List.mem_cons_of_mem _ hx)
    simp only [velRun, checkVelocityFraud]
    rw [if_neg (not_le.mpr hu),
      velRun_unexpired m w rest ⟨c.count + 1, c.expiresAt⟩ hrest]
    simp only [List.length_cons, List.range_succ_eq_map, List.map_cons, List.map_map]
    refine List.cons_eq_cons.mpr ⟨by simp, ?_⟩
    refine List.map_congr_left fun i _ => ?_
    simp only [Function.comp_apply]
    rw [decide_eq_decide]
    omega

/-- C3: velocity checks. On an absent or expired counter (`now ≥ expiresAt`)
the check resets the counter to count 1 with `expiresAt = now + window` and
returns false; on an unexpired counter it increments the count and returns
true iff the new count strictly exceeds `maxAttempts`; consequently, for
calls starting from an empty counter all landing inside the first call's
window, the N-th call (1-indexed) returns true exactly when
`N > maxAttempts` — false up to the `maxAttempts`-th call, true from the
`(maxAttempts+1)`-th — and a later call at or past `expiresAt` restarts the
cycle from false. -/
theorem checkVelocityFraud_window_cycle (m : ℕ) (w firstTime : ℤ) (rest : List ℤ)
    (hm : 1 ≤ m) (hwin : ∀ u ∈ rest, u < firstTime + w) :
    velRun m w none (firstTime :: rest)
        = (List.range (rest.length + 1)).map (fun i => decide (i + 1 > m))
      ∧ (∀ (now : ℤ), checkVelocityFraud m w now none
          = (false, ⟨1, now + w⟩))
      ∧ (∀ (now : ℤ) (c : VelCounter), c.expiresAt ≤ now →
          checkVelocityFraud m w now (some c) = (false, ⟨1, now + w⟩))
      ∧ (∀ (now : ℤ) (c : VelCounter), now < c.expiresAt →
          checkVelocityFraud m w now (some c)
            = (decide (c.count + 1 > m), ⟨c.count + 1, c.expiresAt⟩)) := by
  refine ⟨?_, fun now => rfl, ?_, ?_⟩
  · simp only [velRun, checkVelocityFraud]
    rw [velRun_unexpired m w rest ⟨1, firstTime + w⟩ hwin]
    simp only [List.range_succ_eq_map, List.map_cons, List.map_map]
    refine List.cons_eq_cons.mpr ⟨?_, ?_⟩
    · exact (decide_eq_false (by omega)).symm
    · refine List.map_congr_left fun i _ => ?_
      simp only [Function.comp_apply]
      rw [decide_eq_decide]
      omega
  · intro now c hc
    simp [checkVelocityFraud, hc]
  · intro now c hc
    simp [checkVelocityFraud, not_le.mpr hc]

/-- Witness for C3 at the configured defaults `maxAttempts = 5`,
`window = 3600000`: six calls inside one window return five falses then
true. -/
theorem checkVelocityFraud_window_cycle_witness :
    velRun 5 3600000 none [0, 1, 2, 3, 4, 5]
      = [false, false, false, false, false, true] := by
  have h := (checkVelocityFraud_window_cycle 5 3600000 0 [1, 2, 3, 4, 5]
    (by norm_num) (by decide)).1
  exact h.trans (by decide)

/-- C4: amount anomaly. With no successful historical transaction amounts in
the window the check returns false; otherwise it returns true iff the amount
strictly exceeds the historical mean times the multiplier, or strictly
exceeds 1.5 times the historical maximum — each condition independently
sufficient. -/
theorem checkAmountAnomaly_spec (history : List ℚ) (amount multiplier : ℚ) :
    checkAmountAnomaly [] amount multiplier = false
      ∧ (history ≠ [] →
          (checkAmountAnomaly history amount multiplier = true ↔
            amount > (history.sum / history.length) * multiplier
              ∨ amount > listMax history * (3 / 2))) := by
  refine ⟨rfl, ?_⟩
  intro h
  match history with
  | [] => exact absurd rfl h
  | a :: rest => simp [checkAmountAnomaly]

/-- Witness for C4 at the test fixture history 50,000 / 75,000 / 100,000
with multiplier 3: an amount of 500,000 exceeds both bounds and is
anomalous. -/
theorem checkAmountAnomaly_spec_witness :
    checkAmountAnomaly [50000, 75000, 100000] 500000 3 = true := by
  have h := (checkAmountAnomaly_spec [50000, 75000, 100000] 500000 3).2 (by simp)
  exact h.mpr (by norm_num [listMax, List.foldl])

/-- C5: geographic anomaly. With no historical transactions for the customer
in the window the check returns false; otherwise it returns true iff the
number of distinct non-empty historical IP addresses strictly exceeds
`maxLocations`; and the current transaction's own location argument never
affects the verdict. -/
theorem checkGeographicAnomaly_spec (history : List (Option String))
    (loc : String) (maxLocations : ℕ) :
    checkGeographicAnomaly [] loc maxLocations = false
      ∧ (history ≠ [] →
          (checkGeographicAnomaly history loc maxLocations = true ↔
            ((history.filterMap id).filter (fun s => s ≠ "")).dedup.length > maxLocations))
      ∧ (∀ loc1 loc2 : String,
          checkGeographicAnomaly history loc1 maxLocations
            = checkGeographicAnomaly history loc2 maxLocations) := by
  refine ⟨rfl, ?_, fun loc1 loc2 => rfl⟩
  intro h
  match history with
  | [] => exact absurd rfl h
  | x :: rest => simp [checkGeographicAnomaly]

/-- Witness for C5 at the test fixture: three distinct historical IPs with
`maxLocations = 2` is anomalous, whatever the current location. -/
theorem checkGeographicAnomaly_spec_witness :
    checkGeographicAnomaly
      [some "192.168.1.100", some "192.168.1.101", some "192.168.1.102"]
      "192.168.1.103" 2 = true := by
  have h := (checkGeographicAnomaly_spec
    [some "192.168.1.100", some "192.168.1.101", some "192.168.1.102"]
    "192.168.1.103" 2).2.1 (by simp)
  exact h.mpr (by decide)

/-- A concrete AI analysis used in witnesses, with the given confidence and
fraud flag. -/
def sampleAI (conf : ℚ) (fraud : Bool) : AIFraudAnalysis :=
  { isFraudulent := fraud
    confidence := conf
    reasoning := "sample"
    riskFactors := []
    recommendations := []
    aiModel := "llama"
    analysisTime := 0 }

/-- C6: for a traditional score in `[0, 100]` and an AI confidence in
`[0, 1]`, the combined score equals
`round(clamp(traditional * 0.7 + (confidence * 100) * 0.3, 0, 100))`, and
with no AI analysis it equals the traditional score unchanged. -/
theorem combineRiskScores_spec (T : ℚ) (a : AIFraudAnalysis)
    (hT0 : 0 ≤ T) (hT1 : T ≤ 100) (hc0 : 0 ≤ a.confidence) (hc1 : a.confidence ≤ 1) :
    combineRiskScores T (some a)
        = ((jsRound (min 100 (max 0 (T * (7 / 10) + a.confidence * 100 * (3 / 10)))) : ℤ) : ℚ)
      ∧ combineRiskScores T none = T := by
  refine ⟨?_, rfl⟩
  have hstep : combineRiskScores T (some a)
      = ((min 100 (max 0 (jsRound (T * (7 / 10) + a.confidence * 100 * (3 / 10)))) : ℤ) : ℚ) := rfl
  rw [hstep]
  have hv0 : 0 ≤ T * (7 / 10) + a.confidence * 100 * (3 / 10) := by nlinarith
  have hv100 : T * (7 / 10) + a.confidence * 100 * (3 / 10) ≤ 100 := by nlinarith
  have hR0 : 0 ≤ jsRound (T * (7 / 10) + a.confidence * 100 * (3 / 10)) :=
    Int.floor_nonneg.mpr (by linarith)
  have hR100 : jsRound (T * (7 / 10) + a.confidence * 100 * (3 / 10)) ≤ 100 := by
    have hle : T * (7 / 10) + a.confidence * 100 * (3 / 10) + 1 / 2 ≤ 100 + 1 / 2 := by
      linarith
    have hfl := Int.floor_le_floor hle
    have h100 : (⌊(100 + 1 / 2 : ℚ)⌋ : ℤ) = 100 := by norm_num
    unfold jsRound
    omega
  rw [max_eq_right hv0, min_eq_right hv100, max_eq_right hR0, min_eq_right hR100]

/-- Witness for C6 at traditional score 20 and confidence 0.9:
the combined score is `round(14 + 27) = 41`. -/
theorem combineRiskScores_spec_witness :
    combineRiskScores 20 (some (sampleAI (9 / 10) true)) = 41 := by
  have h := (combineRiskScores_spec 20 (sampleAI (9 / 10) true)
    (by norm_num) (by norm_num) (by norm_num [sampleAI]) (by norm_num [sampleAI])).1
  rw [h]
  norm_num [sampleAI, jsRound]

/-- C9, counterexample: at traditional score 60 and confidence 0.5 the
combined score the code computes is not 53. -/
theorem combineRiskScores_at_60_half_ne_53 :
    combineRiskScores 60 (some (sampleAI (1 / 2) false)) ≠ 53 := by
  norm_num [combineRiskScores, sampleAI, jsRound]

/-- C9, amended: at traditional score 60 and confidence 0.5 the combined
score is `round(42 + 15) = 57`. -/
theorem combineRiskScores_at_60_half_eq_57 :
    combineRiskScores 60 (some (sampleAI (1 / 2) false)) = 57 := by
  norm_num [combineRiskScores, sampleAI, jsRound]

/-- C7: when an AI analysis exists with `isFraudulent` and confidence at or
above the AI confidence threshold, the action is the block / review / flag
ladder on the combined score with a flag floor — never allow; in every other
case (no AI analysis, not flagged fraudulent, or confidence below the
threshold) the plain four-way ladder on the combined score applies. -/
theorem determineFinalAction_spec (bT rT fT aiT : ℚ) (a : AIFraudAnalysis)
    (combined : ℚ) (hfraud : a.isFraudulent = true) (hconf : a.confidence ≥ aiT) :
    (determineFinalAction bT rT fT aiT (some a) combined).1
        = (if combined ≥ bT then .block else if combined ≥ rT then .review else .flag)
      ∧ (determineFinalAction bT rT fT aiT (some a) combined).1 ≠ .allow
      ∧ (∀ combined2 : ℚ, (determineFinalAction bT rT fT aiT none combined2).1
          = (if combined2 ≥ bT then .block else if combined2 ≥ rT then .review
             else if combined2 ≥ fT then .flag else .allow))
      ∧ (∀ (b : AIFraudAnalysis) (combined2 : ℚ),
          b.isFraudulent = false ∨ b.confidence < aiT →
          (determineFinalAction bT rT fT aiT (some b) combined2).1
            = (if combined2 ≥ bT then .block else if combined2 ≥ rT then .review
               else if combined2 ≥ fT then .flag else .allow)) := by
  have hcond : (a.isFraudulent && decide (a.confidence ≥ aiT)) = true := by
    simp [hfraud, hconf]
  refine ⟨?_, ?_, ?_, ?_⟩
  · simp only [determineFinalAction, hcond, if_true]
    split_ifs <;> rfl
  · simp only [determineFinalAction, hcond, if_true]
    split_ifs <;> simp
  · intro combined2
    simp only [determineFinalAction, Bool.false_eq_true, if_false]
    split_ifs <;> rfl
  · intro b combined2 hb
    have hcondb : (b.isFraudulent && decide (b.confidence ≥ aiT)) = false := by
      rcases hb with hb | hb
      · simp [hb]
      · simp [not_le.mpr hb]
    simp only [determineFinalAction, hcondb, Bool.false_eq_true, if_false]
    split_ifs <;> rfl

/-- Witness for C7 at the default thresholds 80 / 50 / 30 and AI confidence
threshold 0.7: a high-confidence fraudulent AI opinion with combined score
41 (below the review threshold) yields flag, not allow. -/
theorem determineFinalAction_spec_witness :
    (determineFinalAction 80 50 30 (7 / 10) (some (sampleAI (9 / 10) true)) 41).1
      = .flag := by
  have h := (determineFinalAction_spec 80 50 30 (7 / 10) (sampleAI (9 / 10) true) 41
    rfl (by norm_num [sampleAI])).1
  rw [h]
  norm_num

/-- C8 (code-bug evidence): with AI enabled and the oracle call failing
(here: missing API key), `AIFraudAnalysisService.analyzeTransaction` returns
its fallback analysis instead of throwing, so `analyzeTransactionWithAI`
reports `aiEnhanced = true` and blends the fallback confidence 0 into the
score: at traditional score 50 the combined score becomes
`round(50 * 0.7 + 0) = 35`, not 50. Only with AI analysis disabled does the
result carry `aiEnhanced = false` and the unchanged traditional score. -/
theorem analyzeTransactionWithAI_oracle_failure_bug :
    (analyzeTransactionWithAI true false .failed "llama" 0 80 50 30 (7 / 10) 50).aiEnhanced
        = true
      ∧ (analyzeTransactionWithAI true false .failed "llama" 0 80 50 30
          (7 / 10) 50).combinedRiskScore = 35
      ∧ (analyzeTransactionWithAI false false .failed "llama" 0 80 50 30
          (7 / 10) 50).aiEnhanced = false
      ∧ (analyzeTransactionWithAI false false .failed "llama" 0 80 50 30
          (7 / 10) 50).combinedRiskScore = 50 := by
  refine ⟨rfl, ?_, rfl, rfl⟩
  norm_num [analyzeTransactionWithAI, aiServiceAnalyzeTransaction, combineRiskScores, jsRound]

/-- C10: for a rule id not present in the registry, update, remove and
toggle all return false and leave the registry exactly as it was. -/
theorem ruleManagement_unknown_id (rules : List FraudRule) (ruleId : String)
    (u : FraudRuleUpdate) (e : Bool) (h : ∀ r ∈ rules, r.id ≠ ruleId) :
    updateFraudRule rules ruleId u = (false, rules)
      ∧ removeFraudRule rules ruleId = (false, rules)
      ∧ toggleFraudRule rules ruleId e = (false, rules) := by
  have hfind : rules.findIdx? (fun rule => rule.id == ruleId) = none := by
    rw [List.findIdx?_eq_none_iff]
    intro r hr
    simpa using h r hr
  refine ⟨?_, ?_, ?_⟩
  · simp [updateFraudRule, hfind]
  · simp [removeFraudRule, hfind]
  · simp [toggleFraudRule, updateFraudRule, hfind]

/-- Witness for C10: the id `non-existent` matches no built-in rule, so all
three management operations return false and leave the built-in registry
unchanged. -/
theorem ruleManagement_unknown_id_witness :
    updateFraudRule FRAUD_RULES "non-existent" { enabled := some false } = (false, FRAUD_RULES)
      ∧ removeFraudRule FRAUD_RULES "non-existent" = (false, FRAUD_RULES)
      ∧ toggleFraudRule FRAUD_RULES "non-existent" false = (false, FRAUD_RULES) :=
  ruleManagement_unknown_id FRAUD_RULES "non-existent" { enabled := some false } false
    (by intro r hr; fin_cases hr <;> decide)

end Fraud
